import Mathlib

/-!
Verification development for the dioxus hot-reload coordinator
(`packages/hot-reload/src/lib.rs`).

The embedding below translates the coordinator's data model and operations.
External collaborators (the diff engine `FileMap`/`update_rsx` from
`dioxus_rsx`, the gitignore matcher, `serde_json`) are modelled at their
interfaces, as documented on each definition.  Machinery that the source
exercises through OS facilities (socket writes, the local-socket listener)
is modelled by explicit success predicates on the written byte chunks.
-/

set_option maxHeartbeats 1000000

namespace HotReloadSpec

/-- Modelled from the spec: a `Template` is an opaque, serializable payload
identified by its identity; the coordinator never inspects its contents.
We carry just the identity. (`dioxus_core::Template` is outside `src/`.) -/
structure Template where
  id : Nat
  deriving DecidableEq

/-- The message enum sent from server to client (lib.rs lines 21-28):
`UpdateTemplate(Template)` or `Shutdown`. -/
inductive HotReloadMsg where
  | UpdateTemplate (t : Template)
  | Shutdown
  deriving DecidableEq

/-- A client connection (`LocalSocketStream`).  `cid` identifies the stream;
`writeOk s` models whether a `write_all` of the byte chunk `s` on this
stream succeeds. -/
structure Channel where
  cid : Nat
  writeOk : String → Bool

/-- `send_msg` (lib.rs lines 309-321): serialize the message; on
serialization failure return `false` without writing; otherwise write the
serialized bytes and then a newline, returning `false` if either write
fails.  `ser` models `serde_json::to_string`. -/
def send_msg (ser : HotReloadMsg → Option String) (ch : Channel)
    (msg : HotReloadMsg) : Bool :=
  match ser msg with
  | some s => ch.writeOk s && ch.writeOk "\n"
  | none => false

/-- One pass of the eviction loop in the `UpdatedRsx` branch (lib.rs lines
276-288): walk the registered channels in order with an index, keeping a
channel (and advancing) when `send_msg` succeeds and removing it from the
registry when the send fails.  Returns the surviving channels and the
`cid`s that received this message. -/
def sweepMsg (ser : HotReloadMsg → Option String) (msg : HotReloadMsg) :
    List Channel → List Channel × List Nat
  | [] => ([], [])
  | ch :: rest =>
    let r := sweepMsg ser msg rest
    if send_msg ser ch msg then (ch :: r.1, ch.cid :: r.2) else (r.1, r.2)

/-- The outer loop of the `UpdatedRsx` branch (lib.rs lines 275-290): for
each message in order, run the eviction pass over the current registry.
Returns the final registry and the delivery log, a list of
(cid, message) pairs in delivery order. -/
def broadcastMsgs (ser : HotReloadMsg → Option String) :
    List HotReloadMsg → List Channel → List Channel × List (Nat × HotReloadMsg)
  | [], channels => (channels, [])
  | msg :: rest, channels =>
    let s := sweepMsg ser msg channels
    let r := broadcastMsgs ser rest s.1
    (r.1, (s.2.map fun cid => (cid, msg)) ++ r.2)

/-- The messages a given `cid` received during a broadcast, in order. -/
def deliveredTo (log : List (Nat × HotReloadMsg)) (cid : Nat) :
    List HotReloadMsg :=
  (log.filter fun e => e.1 == cid).map fun e => e.2

/-- The messages one channel receives from a broadcast, determined by its
own write behaviour alone: once a send to it fails it is evicted and
receives nothing further. -/
def channelView (ser : HotReloadMsg → Option String) (ch : Channel) :
    List HotReloadMsg → List HotReloadMsg
  | [] => []
  | msg :: rest =>
    if send_msg ser ch msg then msg :: channelView ser ch rest else []

/-- Modelled from the spec: the Diff Engine's internal map
(`FileMap.map` from `dioxus_rsx`, outside `src/`), exposing the
currently-known templates for replay in insertion order.  Keys are paths,
values pair the cached source text with an optional template slot. -/
structure FileMap where
  map : List (String × (String × Option Template))

/-- The replay snapshot taken by the listener (lib.rs lines 149-157):
the values of the diff engine's map, keeping only occupied template
slots, in map (insertion) order. -/
def replaySnapshot (fm : FileMap) : List Template :=
  fm.map.filterMap fun kv => kv.2.2

/-- One successful `accept` in the listener loop (lib.rs lines 147-170):
snapshot the diff engine's templates under its lock, send each to the new
connection as `UpdateTemplate` — a failed send only skips to the next
template, since the `continue` is the last statement of the replay loop —
and then push the connection into the registry unconditionally.  Returns
the new registry and the replay messages the connection actually
received. -/
def acceptConnection (ser : HotReloadMsg → Option String) (fm : FileMap)
    (channels : List Channel) (connection : Channel) :
    List Channel × List HotReloadMsg :=
  let templates := replaySnapshot fm
  let received := templates.filterMap fun t =>
    if send_msg ser connection (HotReloadMsg.UpdateTemplate t) then
      some (HotReloadMsg.UpdateTemplate t)
    else none
  (channels ++ [connection], received)

/-- A connection accepted against snapshot `fm`, followed by a later
broadcast of `later` over the registry that now includes it.  The log
pairs each delivered message with the receiving `cid`; the replay
deliveries to the new connection come first. -/
def acceptThenBroadcast (ser : HotReloadMsg → Option String) (fm : FileMap)
    (channels : List Channel) (connection : Channel)
    (later : List HotReloadMsg) :
    List Channel × List (Nat × HotReloadMsg) :=
  let a := acceptConnection ser fm channels connection
  let b := broadcastMsgs ser later a.1
  (b.1, (a.2.map fun m => (connection.cid, m)) ++ b.2)

/-- A filesystem path as the watcher sees it: its components (for the
`Path::starts_with` prefix tests) and the extension of its final
component (what `path.extension()` yields). -/
structure FPath where
  components : List String
  ext : Option String
  deriving DecidableEq

/-- The hot-reload-eligible extensions of the watcher's filter
(lib.rs lines 243-246). -/
def hotReloadExts : List String := ["rs", "toml", "css", "html", "js"]

/-- The watcher's path filter (lib.rs lines 241-253): keep a path iff its
extension is in the eligible set, it does not start with any excluded
path, and it is not matched by the gitignore rules.  `ignored` models the
external `ignore::gitignore` matcher (`matched_path_or_any_parents(..).is_ignore()`). -/
def isRelevant (excluded : List (List String)) (ignored : FPath → Bool)
    (p : FPath) : Bool :=
  (match p.ext with
   | some e => hotReloadExts.contains e
   | none => false)
  && !(excluded.any fun q => q.isPrefixOf p.components)
  && !(ignored p)

/-- The diff engine's result type (`dioxus_rsx::hot_reload::UpdateResult`,
outside `src/`; its two variants are exactly the ones matched at lib.rs
lines 275 and 291). -/
inductive UpdateResult where
  | UpdatedRsx (msgs : List Template)
  | NeedsRebuild

/-- The shared mutable state the two worker loops touch: the abort flag
and the connection registry. -/
structure WatchState where
  aborted : Bool
  channels : List Channel

/-- Observable events of one batch evaluation by the watcher thread. -/
inductive REv where
  | rebuildInvoked
  | diffCall (p : FPath)
  | sent (cid : Nat) (msg : HotReloadMsg)
  | shutdownAttempt (cid : Nat)
  deriving DecidableEq

/-- Result of one call of the `rebuild` closure.  `stuck` records that the
call never returns: with a configured strategy the closure locks the
registry to broadcast `Shutdown` (lib.rs line 221), and `std::sync::Mutex`
is not reentrant, so if the caller already holds the registry guard the
`lock()` call deadlocks (or panics) and control never comes back.  When
`stuck` is true the `shutdown` field is meaningless and set `false`. -/
structure RebuildResult where
  stuck : Bool
  shutdown : Bool
  state : WatchState
  events : List REv

/-- The `rebuild` closure (lib.rs lines 207-233).  `strategy` models
`rebuild_with`, reduced to the boolean its callback returns.  With a
configured callback: run it, set the abort flag if it asked to shut down,
then lock the registry and attempt a `Shutdown` write on every registered
channel, ignoring write results (no eviction), and return the callback's
boolean.  If the caller already holds the registry guard (`registryHeld`),
the `channels.lock()` re-entry never returns — the callback has run and
the abort flag is already updated at that point.  With no callback: log
only, touch nothing, and return `true`. -/
def rebuildRun (strategy : Option Bool) (registryHeld : Bool)
    (st : WatchState) : RebuildResult :=
  match strategy with
  | some shutdown =>
    let st1 : WatchState := ⟨st.aborted || shutdown, st.channels⟩
    if registryHeld then ⟨true, false, st1, []⟩
    else ⟨false, shutdown, st1,
      st1.channels.map fun ch => REv.shutdownAttempt ch.cid⟩
  | none => ⟨false, true, st, []⟩

/-- The listener loop's cooperative cancellation check (lib.rs lines
171-174): after each accept attempt and 10 ms sleep the loop continues
iff the abort flag is still false. -/
def listenerContinues (aborted : Bool) : Bool := !aborted

/-- How one batch evaluation ends: the path loop ran off the end of the
list, `break` was executed (rebuild declined to terminate after
`NeedsRebuild`), `return` was executed (the watcher thread ends), or the
thread got stuck inside `rebuild` re-acquiring the held registry lock. -/
inductive BatchOutcome where
  | completed
  | broke
  | returnedThread
  | stuck
  deriving DecidableEq

/-- The per-path loop of one batch (lib.rs lines 261-299), entered with
the registry guard taken at line 261 and held for the whole loop.  For
each path in order: if its extension is not `rs`, call `rebuild()` —
while the registry guard is held — and `return` if it yields true;
otherwise (or on fall-through) call the diff engine under its own lock.
`UpdatedRsx` broadcasts each template through the eviction loop;
`NeedsRebuild` drops the registry guard, calls `rebuild()`, `return`s if
it yields true and otherwise `break`s.  Returns the event trace, the
final shared state, and how the loop ended. -/
def processPaths (ser : HotReloadMsg → Option String) (strategy : Option Bool)
    (diff : FPath → UpdateResult) :
    List FPath → WatchState → List REv × WatchState × BatchOutcome
  | [], st => ([], st, .completed)
  | p :: rest, st =>
    if p.ext ≠ some "rs" then
      let r := rebuildRun strategy true st
      if r.stuck then ([.rebuildInvoked], r.state, .stuck)
      else if r.shutdown then
        (.rebuildInvoked :: r.events, r.state, .returnedThread)
      else
        match diff p with
        | .UpdatedRsx msgs =>
          let b := broadcastMsgs ser (msgs.map HotReloadMsg.UpdateTemplate)
            r.state.channels
          let k := processPaths ser strategy diff rest
            ⟨r.state.aborted, b.1⟩
          ((.rebuildInvoked :: r.events)
            ++ (.diffCall p :: b.2.map fun e => REv.sent e.1 e.2) ++ k.1, k.2)
        | .NeedsRebuild =>
          let r2 := rebuildRun strategy false r.state
          if r2.stuck then
            ((.rebuildInvoked :: r.events) ++ [.diffCall p, .rebuildInvoked],
              r2.state, .stuck)
          else if r2.shutdown then
            ((.rebuildInvoked :: r.events)
              ++ [.diffCall p, .rebuildInvoked] ++ r2.events,
              r2.state, .returnedThread)
          else
            ((.rebuildInvoked :: r.events)
              ++ [.diffCall p, .rebuildInvoked] ++ r2.events,
              r2.state, .broke)
    else
      match diff p with
      | .UpdatedRsx msgs =>
        let b := broadcastMsgs ser (msgs.map HotReloadMsg.UpdateTemplate)
          st.channels
        let k := processPaths ser strategy diff rest ⟨st.aborted, b.1⟩
        (.diffCall p :: (b.2.map fun e => REv.sent e.1 e.2) ++ k.1, k.2)
      | .NeedsRebuild =>
        let r2 := rebuildRun strategy false st
        if r2.stuck then
          ([.diffCall p, .rebuildInvoked], r2.state, .stuck)
        else if r2.shutdown then
          ([.diffCall p, .rebuildInvoked] ++ r2.events, r2.state,
            .returnedThread)
        else
          ([.diffCall p, .rebuildInvoked] ++ r2.events, r2.state, .broke)

/-- One batch of watcher events (lib.rs lines 237-299): filter the
reported paths through the relevance filter, then run the per-path loop
on the survivors.  (The second-granularity debounce gate and the 10 ms
settle sleep are timing behaviour and are not part of this model.) -/
def processBatch (ser : HotReloadMsg → Option String) (strategy : Option Bool)
    (diff : FPath → UpdateResult) (excluded : List (List String))
    (ignored : FPath → Bool) (paths : List FPath) (st : WatchState) :
    List REv × WatchState × BatchOutcome :=
  processPaths ser strategy diff (paths.filter (isRelevant excluded ignored)) st

/-- Acquire/release events on the two shared locks the claim about lock
discipline concerns: the diff engine's map mutex (`file_map`) and the
connection registry mutex (`channels`). -/
inductive LockEv where
  | acqChannels
  | relChannels
  | acqFileMap
  | relFileMap
  deriving DecidableEq

/-- Scan a lock trace carrying the nesting depth of each lock; `true` iff
at some point both locks are held simultaneously. -/
def lockScan : List LockEv → Nat → Nat → Bool
  | [], _, _ => false
  | e :: rest, chDepth, fmDepth =>
    let next : Nat × Nat :=
      match e with
      | .acqChannels => (chDepth + 1, fmDepth)
      | .relChannels => (chDepth - 1, fmDepth)
      | .acqFileMap => (chDepth, fmDepth + 1)
      | .relFileMap => (chDepth, fmDepth - 1)
    (decide (0 < next.1) && decide (0 < next.2)) || lockScan rest next.1 next.2

/-- True iff some point of the trace holds both locks at once. -/
def holdsBothLocks (tr : List LockEv) : Bool := lockScan tr 0 0

/-- Lock sequence of one listener accept iteration (lib.rs lines 147-170):
the replay snapshot takes and releases the file-map lock inside its own
block (lines 149-157), and only afterwards is the registry locked to push
the connection (line 166). -/
def listenerAcceptLocks : List LockEv :=
  [.acqFileMap, .relFileMap, .acqChannels, .relChannels]

/-- Lock sequence of a router batch iteration that processes one
hot-reloadable path whose diff result is `UpdatedRsx` (lib.rs lines
261-301): the registry is locked at line 261 before the path loop; inside
the loop `file_map.lock()` is taken as the `match` scrutinee at line 270
and its guard lives to the end of the `match`; the registry guard is
released only when the surrounding block ends. -/
def routerUpdatedRsxLocks : List LockEv :=
  [.acqChannels, .acqFileMap, .relFileMap, .relChannels]

/-- Modelled from the spec: the wire format of §6 — one serialized message
per line, either `{"UpdateTemplate": <payload>}` or the literal
`"Shutdown"`.  This stands in for `serde_json::to_string`, which is
outside `src/`; the opaque template payload is rendered as its
identity. -/
def serializeMsg : HotReloadMsg → Option String
  | .UpdateTemplate t => some ("\x7b\"UpdateTemplate\":" ++ toString t.id ++ "\x7d")
  | .Shutdown => some "\"Shutdown\""

/-- Numeric value of a decimal digit character, if it is one. -/
def digitVal? (c : Char) : Option Nat :=
  if '0' ≤ c ∧ c ≤ '9' then some (c.toNat - '0'.toNat) else none

/-- Parse a nonempty run of decimal digits. -/
def digitsToNat? : List Char → Option Nat
  | [] => none
  | cs =>
    cs.foldl (fun acc c => acc.bind fun a => (digitVal? c).map fun d => a * 10 + d)
      (some 0)

/-- Modelled from the spec: `serde_json::from_str` (outside `src/`) on a
line read by the client.  Accepts the two wire forms of §6, tolerating
the trailing newline `read_line` leaves in the buffer; anything else —
in particular the empty buffer left by a zero-byte end-of-stream read —
fails to parse. -/
def deserializeMsg (s : String) : Option HotReloadMsg :=
  let cs0 := s.data
  let cs := if cs0.getLast? = some '\n' then cs0.dropLast else cs0
  if cs = "\"Shutdown\"".data then some HotReloadMsg.Shutdown
  else if "\x7b\"UpdateTemplate\":".data.isPrefixOf cs
      && (cs.getLast? == some '\x7d') then
    match digitsToNat? ((cs.drop 18).dropLast) with
    | some n => some (HotReloadMsg.UpdateTemplate ⟨n⟩)
    | none => none
  else none

/-- What one `read_line` call in the client loop yields: a buffer without
an I/O error (at end of stream this is the unchanged empty buffer), or an
I/O error that either is or is not `WouldBlock`. -/
inductive ReadResult where
  | ok (line : String)
  | err (wouldBlock : Bool)
  deriving DecidableEq

/-- How one iteration of the client read loop ends. -/
inductive ClientStep where
  | panicked
  | delivered (msg : HotReloadMsg)
  | continued
  | stopped
  deriving DecidableEq

/-- One iteration of the client read loop (lib.rs lines 329-343): on an
error-free read, deserialize the buffer and `unwrap` — panicking when it
is not a valid message — otherwise hand the message to the callback and
loop; on an I/O error, loop if the kind is `WouldBlock` and `break`
otherwise. -/
def clientStep (r : ReadResult) : ClientStep :=
  match r with
  | .ok line =>
    match deserializeMsg line with
    | some msg => .delivered msg
    | none => .panicked
  | .err wouldBlock => if wouldBlock then .continued else .stopped

/-- A channel whose writes all succeed. -/
def chanOk (cid : Nat) : Channel := ⟨cid, fun _ => true⟩

/-- A channel whose writes all fail (a dead socket). -/
def chanDead (cid : Nat) : Channel := ⟨cid, fun _ => false⟩

/-- A channel that rejects exactly the template-update lines (those
opening a JSON object) but accepts everything else. -/
def chanNoTemplates (cid : Nat) : Channel :=
  ⟨cid, fun s => !(s.data.head? == some '\x7b')⟩

/-- A one-entry diff-engine map whose single slot holds template 1. -/
def fmOne : FileMap := ⟨[("src/main.rs", ("", some ⟨1⟩))]⟩

/-- A hot-reloadable source path. -/
def pRs : FPath := ⟨["src", "main.rs"], some "rs"⟩

/-- A non-hot-reloadable (manifest) path. -/
def pToml : FPath := ⟨["Cargo.toml"], some "toml"⟩

/-- A path whose extension is outside the hot-reload-eligible set, hence
irrelevant to the filter. -/
def pPng : FPath := ⟨["assets", "logo.png"], some "png"⟩

/-- A diff engine that reports one updated template for any path. -/
def diffOneUpdate : FPath → UpdateResult :=
  fun _ => .UpdatedRsx [⟨7⟩]

/-- A diff engine that always demands a rebuild. -/
def diffNeedsRebuild : FPath → UpdateResult :=
  fun _ => .NeedsRebuild

/-- A serializer that fails on every message. -/
def serFail : HotReloadMsg → Option String := fun _ => none

/-! ### Helper lemmas about the broadcast-with-eviction loop -/

theorem sweepMsg_fst (ser : HotReloadMsg → Option String) (msg : HotReloadMsg) :
    ∀ chs : List Channel,
      (sweepMsg ser msg chs).1 = chs.filter fun ch => send_msg ser ch msg
  | [] => rfl
  | ch :: rest => by
    simp only [sweepMsg, List.filter_cons]
    cases h : send_msg ser ch msg <;>
      simp [h, sweepMsg_fst ser msg rest]

theorem sweepMsg_snd (ser : HotReloadMsg → Option String) (msg : HotReloadMsg) :
    ∀ chs : List Channel,
      (sweepMsg ser msg chs).2 = (sweepMsg ser msg chs).1.map (fun ch => ch.cid)
  | [] => rfl
  | ch :: rest => by
    simp only [sweepMsg]
    cases h : send_msg ser ch msg <;>
      simp [h, sweepMsg_snd ser msg rest]

theorem broadcastMsgs_fst (ser : HotReloadMsg → Option String) :
    ∀ (msgs : List HotReloadMsg) (chs : List Channel),
      (broadcastMsgs ser msgs chs).1
        = chs.filter fun ch => msgs.all fun m => send_msg ser ch m
  | [], chs => by simp [broadcastMsgs]
  | msg :: rest, chs => by
    simp only [broadcastMsgs]
    rw [broadcastMsgs_fst ser rest, sweepMsg_fst, List.filter_filter]
    refine List.filter_congr fun ch _ => ?_
    simp [Bool.and_comm]

theorem broadcastMsgs_log_cids (ser : HotReloadMsg → Option String) :
    ∀ (msgs : List HotReloadMsg) (chs : List Channel),
      ∀ e ∈ (broadcastMsgs ser msgs chs).2, e.1 ∈ chs.map (fun ch => ch.cid)
  | [], chs => by simp [broadcastMsgs]
  | msg :: rest, chs => by
    intro e he
    simp only [broadcastMsgs, List.mem_append] at he
    have hsub : ((sweepMsg ser msg chs).1.map (fun ch => ch.cid)).Sublist
        (chs.map fun ch => ch.cid) := by
      rw [sweepMsg_fst]
      exact (List.filter_sublist chs).map _
    rcases he with he | he
    · rcases List.mem_map.mp he with ⟨cid, hcid, rfl⟩
      rw [sweepMsg_snd] at hcid
      exact hsub.mem hcid
    · exact hsub.mem (broadcastMsgs_log_cids ser rest _ e he)

theorem deliveredTo_append (a b : List (Nat × HotReloadMsg)) (cid : Nat) :
    deliveredTo (a ++ b) cid = deliveredTo a cid ++ deliveredTo b cid := by
  simp [deliveredTo, List.filter_append]

theorem deliveredTo_cids_map (cids : List Nat) (msg : HotReloadMsg) (c : Nat) :
    deliveredTo (cids.map fun cid => (cid, msg)) c
      = (cids.filter fun x => x == c).map fun _ => msg := by
  simp only [deliveredTo, List.filter_map, List.map_map]
  rfl

theorem deliveredTo_map_self (l : List HotReloadMsg) (cid : Nat) :
    deliveredTo (l.map fun m => (cid, m)) cid = l := by
  simp only [deliveredTo, List.filter_map, List.map_map]
  have h1 : ((fun (e : Nat × HotReloadMsg) => e.1 == cid) ∘ fun m => (cid, m))
      = fun (_ : HotReloadMsg) => true := by
    funext m; simp
  have h2 : ((fun (e : Nat × HotReloadMsg) => e.2) ∘ fun m => (cid, m))
      = (id : HotReloadMsg → HotReloadMsg) := rfl
  rw [h1, h2, List.filter_true, List.map_id]

theorem deliveredTo_nil_of_not_mem (ser : HotReloadMsg → Option String)
    (msgs : List HotReloadMsg) (chs : List Channel) (cid : Nat)
    (h : cid ∉ chs.map fun ch => ch.cid) :
    deliveredTo (broadcastMsgs ser msgs chs).2 cid = [] := by
  have : (broadcastMsgs ser msgs chs).2.filter (fun e => e.1 == cid) = [] := by
    refine List.filter_eq_nil_iff.mpr fun e he hc => ?_
    exact h ((beq_iff_eq.mp hc) ▸ broadcastMsgs_log_cids ser msgs chs e he)
  simp [deliveredTo, this]

theorem nodup_filter_beq : ∀ (l : List Nat), l.Nodup → ∀ c ∈ l,
    l.filter (fun x => x == c) = [c]
  | [], _, c, hc => by simp at hc
  | a :: rest, h, c, hc => by
    rcases List.nodup_cons.mp h with ⟨ha, hrest⟩
    rcases List.mem_cons.mp hc with rfl | hc'
    · have : rest.filter (fun x => x == c) = [] :=
        List.filter_eq_nil_iff.mpr fun x hx hxc => ha (beq_iff_eq.mp hxc ▸ hx)
      simp [List.filter_cons, this]
    · have hac : (a == c) = false := by
        refine beq_eq_false_iff_ne.mpr fun h' => ha (h' ▸ hc')
      simp [List.filter_cons, hac, nodup_filter_beq rest hrest c hc']

theorem send_msg_of_ok (ser : HotReloadMsg → Option String) (ch : Channel)
    (msg : HotReloadMsg) (hok : ∀ s, ch.writeOk s = true)
    (hser : (ser msg).isSome) : send_msg ser ch msg = true := by
  cases h : ser msg with
  | none => rw [h] at hser; simp at hser
  | some s => simp [send_msg, h, hok]

theorem channelView_all (ser : HotReloadMsg → Option String) (ch : Channel)
    (hok : ∀ s, ch.writeOk s = true) :
    ∀ msgs : List HotReloadMsg, (∀ m ∈ msgs, (ser m).isSome) →
      channelView ser ch msgs = msgs
  | [], _ => rfl
  | m :: rest, hser => by
    rw [channelView, if_pos (send_msg_of_ok ser ch m hok (hser m (List.mem_cons_self m rest))),
      channelView_all ser ch hok rest fun x hx => hser x (List.mem_cons_of_mem m hx)]

theorem deliveredTo_eq_channelView (ser : HotReloadMsg → Option String) :
    ∀ (msgs : List HotReloadMsg) (chs : List Channel) (ch : Channel),
      (chs.map fun c => c.cid).Nodup → ch ∈ chs →
      deliveredTo (broadcastMsgs ser msgs chs).2 ch.cid = channelView ser ch msgs
  | [], chs, ch, _, _ => by simp [broadcastMsgs, channelView, deliveredTo]
  | msg :: rest, chs, ch, hnd, hch => by
    simp only [broadcastMsgs, channelView]
    rw [deliveredTo_append, sweepMsg_snd, deliveredTo_cids_map]
    have hsubl : ((sweepMsg ser msg chs).1.map fun c => c.cid).Sublist
        (chs.map fun c => c.cid) := by
      rw [sweepMsg_fst]; exact (List.filter_sublist chs).map _
    have hnd' : ((sweepMsg ser msg chs).1.map fun c => c.cid).Nodup :=
      hnd.sublist hsubl
    cases hsend : send_msg ser ch msg with
    | true =>
      have hmem : ch ∈ (sweepMsg ser msg chs).1 := by
        rw [sweepMsg_fst]; exact List.mem_filter.mpr ⟨hch, hsend⟩
      rw [nodup_filter_beq _ hnd' ch.cid (List.mem_map.mpr ⟨ch, hmem, rfl⟩)]
      rw [deliveredTo_eq_channelView ser rest _ ch hnd' hmem]
      simp
    | false =>
      have hnotmem : ch.cid ∉ (sweepMsg ser msg chs).1.map fun c => c.cid := by
        intro hcid
        rcases List.mem_map.mp hcid with ⟨ch', hch', hcid'⟩
        have hch'chs : ch' ∈ chs := by
          rw [sweepMsg_fst] at hch'; exact (List.mem_filter.mp hch').1
        have : ch' = ch := List.inj_on_of_nodup_map hnd hch'chs hch hcid'
        subst this
        rw [sweepMsg_fst] at hch'
        rw [(List.mem_filter.mp hch').2] at hsend
        exact Bool.true_eq_false.mp hsend
      have h1 : ((sweepMsg ser msg chs).1.map fun c => c.cid).filter
          (fun x => x == ch.cid) = [] :=
        List.filter_eq_nil_iff.mpr fun x hx hxc =>
          hnotmem (beq_iff_eq.mp hxc ▸ hx)
      rw [h1, deliveredTo_nil_of_not_mem ser rest _ ch.cid hnotmem]
      simp

/-! ### Helper lemmas about the batch loop -/

theorem diffCall_mem (ser : HotReloadMsg → Option String) (strategy : Option Bool)
    (diff : FPath → UpdateResult) (l : List FPath) :
    ∀ (st : WatchState) (q : FPath),
      REv.diffCall q ∈ (processPaths ser strategy diff l st).1 → q ∈ l := by
  induction l with
  | nil => intro st q h; simp [processPaths] at h
  | cons p rest ih =>
    intro st q h
    by_cases hp : p.ext ≠ some "rs"
    · rcases strategy with _ | b <;> simp [processPaths, hp, rebuildRun] at h
    · cases hd : diff p with
      | UpdatedRsx msgs =>
        simp only [processPaths, if_neg hp, hd, List.mem_cons, List.mem_append,
          List.mem_map] at h
        rcases h with (h | ⟨e, he, hee⟩) | h
        · cases h; exact List.mem_cons_self _ _
        · cases hee
        · exact List.mem_cons_of_mem _ (ih _ _ h)
      | NeedsRebuild =>
        rcases strategy with _ | b
        · simp [processPaths, hp, hd, rebuildRun] at h
          simp [h]
        · cases b <;>
          · simp [processPaths, hp, hd, rebuildRun] at h
            simp [h]

theorem processPaths_append_completed (ser : HotReloadMsg → Option String)
    (strategy : Option Bool) (diff : FPath → UpdateResult) (l₁ : List FPath) :
    ∀ (l₂ : List FPath) (st st' : WatchState) (tr : List REv),
      processPaths ser strategy diff l₁ st = (tr, st', .completed) →
      processPaths ser strategy diff (l₁ ++ l₂) st
        = (tr ++ (processPaths ser strategy diff l₂ st').1,
           (processPaths ser strategy diff l₂ st').2) := by
  induction l₁ with
  | nil =>
    intro l₂ st st' tr h
    simp only [processPaths, Prod.mk.injEq] at h
    obtain ⟨h1, h2, -⟩ := h
    subst h1; subst h2
    simp
  | cons p rest ih =>
    intro l₂ st st' tr h
    by_cases hp : p.ext ≠ some "rs"
    · exfalso
      rcases strategy with _ | b <;>
        simp [processPaths, hp, rebuildRun, Prod.mk.injEq] at h
    · cases hd : diff p with
      | UpdatedRsx msgs =>
        simp only [processPaths, if_neg hp, hd] at h ⊢
        rcases hk : processPaths ser strategy diff rest
            ⟨st.aborted, (broadcastMsgs ser
              (msgs.map HotReloadMsg.UpdateTemplate) st.channels).1⟩
          with ⟨ktr, kst, kout⟩
        rw [hk] at h
        simp only [Prod.mk.injEq] at h
        obtain ⟨h1, h2, h3⟩ := h
        subst h2; subst h3
        simp only [List.append_eq]
        rw [ih l₂ _ kst ktr hk]
        simp [← h1]
      | NeedsRebuild =>
        exfalso
        rcases strategy with _ | b
        · simp [processPaths, hp, hd, rebuildRun, Prod.mk.injEq] at h
        · cases b <;> simp [processPaths, hp, hd, rebuildRun, Prod.mk.injEq] at h

/-- Reaching a path whose extension is not hot-reloadable invokes the
rebuild closure right away, and the loop never gets past it: with a
configured strategy the closure re-locks the already-held registry mutex
and never returns; with none it returns `true` and the thread `return`s. -/
theorem processPaths_nonRs (ser : HotReloadMsg → Option String)
    (strategy : Option Bool) (diff : FPath → UpdateResult) (p : FPath)
    (rest : List FPath) (st : WatchState) (hp : p.ext ≠ some "rs") :
    (processPaths ser strategy diff (p :: rest) st).1 = [.rebuildInvoked] ∧
    ((processPaths ser strategy diff (p :: rest) st).2.2 = .stuck ∨
     (processPaths ser strategy diff (p :: rest) st).2.2 = .returnedThread) := by
  rcases strategy with _ | b <;> simp [processPaths, hp, rebuildRun]

theorem filterMap_guard_true {α β : Type} (f : α → β) (g : α → Bool)
    (h : ∀ a, g a = true) :
    ∀ l : List α, (l.filterMap fun a => if g a then some (f a) else none) = l.map f
  | [] => rfl
  | a :: rest => by
    rw [List.filterMap_cons, h a]
    simp [filterMap_guard_true f g h rest]

/-! ### Claims -/

/-- C1: the claim (and spec §4.1) says a connection for which a replayed
send fails is discarded and never registered.  The code registers it
anyway: the `continue` on a failed send (lib.rs line 163) is the last
statement of the replay `for` loop, so it is a no-op, and line 166 pushes
the connection unconditionally.  Here a dead connection receives none of
the nonempty snapshot yet ends up registered. -/
theorem c1_registered_despite_failed_replay :
    replaySnapshot fmOne ≠ [] ∧
    (acceptConnection serializeMsg fmOne [] (chanDead 5)).2 = [] ∧
    (acceptConnection serializeMsg fmOne [] (chanDead 5)).1.map (fun ch => ch.cid)
      = [5] := by
  refine ⟨by decide, by decide, by decide⟩

/-- C2 (counterexample): with no rebuild strategy configured, the rebuild
path reports termination but broadcasts nothing, even though a connection
is registered — refuting the claim that `Shutdown` is broadcast
"also when no rebuild strategy is configured". -/
theorem c2_no_shutdown_without_strategy :
    (rebuildRun none false ⟨false, [chanOk 1]⟩).shutdown = true ∧
    (rebuildRun none false ⟨false, [chanOk 1]⟩).state.channels.map
      (fun ch => ch.cid) = [1] ∧
    (rebuildRun none false ⟨false, [chanOk 1]⟩).events = [] :=
  ⟨rfl, rfl, rfl⟩

/-- C2 (amended): an invocation of the rebuild path with a configured
strategy, reached with the registry lock free (the `NeedsRebuild` branch),
attempts a `Shutdown` write on every currently-registered connection
regardless of the strategy's return value and evicts none of them; with
no strategy configured nothing is broadcast and the call reports
termination. -/
theorem c2_shutdown_broadcast_with_strategy (b : Bool) (st : WatchState) :
    (rebuildRun (some b) false st).events
      = st.channels.map (fun ch => REv.shutdownAttempt ch.cid) ∧
    (rebuildRun (some b) false st).state.channels = st.channels ∧
    (rebuildRun (some b) false st).shutdown = b ∧
    (rebuildRun none false st).events = [] ∧
    (rebuildRun none false st).shutdown = true :=
  ⟨rfl, rfl, rfl, rfl, rfl⟩

/-- C3 (counterexample): with no strategy configured the session is
treated as requiring termination (the rebuild call yields true and the
watcher thread returns, evaluating no further batch), yet the abort flag
is never set and the listener keeps accepting — refuting the claim that
termination always sets `AbortFlag` and stops the listener. -/
theorem c3_no_abort_when_no_strategy :
    (processPaths serializeMsg none diffNeedsRebuild [pRs]
      ⟨false, [chanOk 2]⟩).2.2 = .returnedThread ∧
    (processPaths serializeMsg none diffNeedsRebuild [pRs]
      ⟨false, [chanOk 2]⟩).2.1.aborted = false ∧
    listenerContinues (processPaths serializeMsg none diffNeedsRebuild [pRs]
      ⟨false, [chanOk 2]⟩).2.1.aborted = true ∧
    (processPaths serializeMsg none diffNeedsRebuild [pRs]
      ⟨false, [chanOk 2]⟩).1 = [.diffCall pRs, .rebuildInvoked] := by
  refine ⟨by decide, by decide, by decide, by decide⟩

/-- C3 (amended): when the configured strategy reports terminate on a
`NeedsRebuild` result, the abort flag is set, the watcher thread returns
so no later path of the batch (and no subsequent batch) is evaluated, and
the listener's next poll-interval check stops the accept loop. -/
theorem c3_terminate_sets_abort (ser : HotReloadMsg → Option String)
    (diff : FPath → UpdateResult) (p : FPath) (rest : List FPath)
    (st : WatchState) (hp : p.ext = some "rs")
    (hd : diff p = .NeedsRebuild) :
    (processPaths ser (some true) diff (p :: rest) st).2.2 = .returnedThread ∧
    (processPaths ser (some true) diff (p :: rest) st).2.1.aborted = true ∧
    listenerContinues
      (processPaths ser (some true) diff (p :: rest) st).2.1.aborted = false ∧
    (processPaths ser (some true) diff (p :: rest) st).1
      = [.diffCall p, .rebuildInvoked]
        ++ st.channels.map (fun ch => REv.shutdownAttempt ch.cid) := by
  have hp' : ¬ p.ext ≠ some "rs" := by simp [hp]
  simp [processPaths, hp', hd, rebuildRun, listenerContinues]

/-- C3 (witness): the amended claim at a concrete input. -/
theorem c3_terminate_sets_abort_witness :
    (processPaths serializeMsg (some true) diffNeedsRebuild [pRs]
      ⟨false, [chanOk 2]⟩).2.2 = .returnedThread ∧
    (processPaths serializeMsg (some true) diffNeedsRebuild [pRs]
      ⟨false, [chanOk 2]⟩).2.1.aborted = true ∧
    listenerContinues (processPaths serializeMsg (some true) diffNeedsRebuild
      [pRs] ⟨false, [chanOk 2]⟩).2.1.aborted = false ∧
    (processPaths serializeMsg (some true) diffNeedsRebuild [pRs]
      ⟨false, [chanOk 2]⟩).1
      = [.diffCall pRs, .rebuildInvoked, .shutdownAttempt 2] := by
  have h := c3_terminate_sets_abort serializeMsg diffNeedsRebuild pRs []
    ⟨false, [chanOk 2]⟩ rfl rfl
  exact ⟨h.1, h.2.1, h.2.2.1, h.2.2.2.trans (by decide)⟩

/-- C4 (counterexample): a batch holding a hot-reloadable path before a
non-hot-reloadable one broadcasts that path's `TemplateUpdate` before the
rebuild is triggered, so such a batch does not produce zero
`TemplateUpdate` broadcasts as claimed. -/
theorem c4_update_broadcast_before_rebuild :
    pToml.ext ≠ some "rs" ∧
    (processBatch serializeMsg none diffOneUpdate [] (fun _ => false)
      [pRs, pToml] ⟨false, [chanOk 1]⟩).1
      = [.diffCall pRs, .sent 1 (.UpdateTemplate ⟨7⟩), .rebuildInvoked] ∧
    (processBatch serializeMsg none diffOneUpdate [] (fun _ => false)
      [pRs, pToml] ⟨false, [chanOk 1]⟩).2.2 = .returnedThread := by
  refine ⟨by decide, by decide, by decide⟩

/-- C4 (amended): when the batch loop reaches a path whose extension is
not hot-reloadable, the rebuild path is invoked immediately and the
remainder of the batch is abandoned — no diff-engine call for that path,
no later path, and no further `TemplateUpdate` from that point on
(with a configured strategy the loop is stuck in the re-entrant registry
lock; otherwise the thread returns) — but paths earlier in the batch have
already been processed and may have broadcast `TemplateUpdate`s. -/
theorem c4_rebuild_abandons_remainder (ser : HotReloadMsg → Option String)
    (strategy : Option Bool) (diff : FPath → UpdateResult)
    (pre : List FPath) (p : FPath) (rest : List FPath)
    (st st' : WatchState) (tr : List REv)
    (hpre : processPaths ser strategy diff pre st = (tr, st', .completed))
    (hp : p.ext ≠ some "rs") :
    (processPaths ser strategy diff (pre ++ p :: rest) st).1
      = tr ++ [.rebuildInvoked] ∧
    ((processPaths ser strategy diff (pre ++ p :: rest) st).2.2 = .stuck ∨
     (processPaths ser strategy diff (pre ++ p :: rest) st).2.2
       = .returnedThread) := by
  rw [processPaths_append_completed ser strategy diff pre (p :: rest) st st' tr
    hpre]
  obtain ⟨h1, h2⟩ := processPaths_nonRs ser strategy diff p rest st' hp
  exact ⟨by rw [h1], by simpa using h2⟩

/-- C4 (witness): the amended claim at a concrete input. -/
theorem c4_rebuild_abandons_remainder_witness :
    (processPaths serializeMsg none diffOneUpdate [pToml, pRs]
      ⟨false, []⟩).1 = [.rebuildInvoked] ∧
    ((processPaths serializeMsg none diffOneUpdate [pToml, pRs]
      ⟨false, []⟩).2.2 = .stuck ∨
     (processPaths serializeMsg none diffOneUpdate [pToml, pRs]
      ⟨false, []⟩).2.2 = .returnedThread) := by
  have h := c4_rebuild_abandons_remainder serializeMsg none diffOneUpdate []
    pToml [pRs] ⟨false, []⟩ ⟨false, []⟩ [] rfl (by decide)
  simpa using h

/-- C5: a broadcast of `msgs` over a registry in which exactly one
connection `c` suffers a write failure removes only `c`; every other
registered connection stays and receives all the messages, in order.  No
error is surfaced (the loop returns only the new registry and the
delivery log) and the evicted connection is not retried. -/
theorem c5_eviction_isolation (ser : HotReloadMsg → Option String)
    (msgs : List HotReloadMsg) (chs : List Channel) (c : Channel)
    (hser : ∀ m ∈ msgs, (ser m).isSome)
    (hnd : (chs.map fun ch => ch.cid).Nodup)
    (hc : c ∈ chs)
    (hfail : ∃ m ∈ msgs, send_msg ser c m = false)
    (hok : ∀ ch ∈ chs, ch.cid ≠ c.cid → ∀ s, ch.writeOk s = true) :
    (broadcastMsgs ser msgs chs).1 = chs.filter (fun ch => ch.cid != c.cid) ∧
    ∀ ch ∈ chs, ch.cid ≠ c.cid →
      deliveredTo (broadcastMsgs ser msgs chs).2 ch.cid = msgs := by
  constructor
  · rw [broadcastMsgs_fst]
    refine List.filter_congr fun ch hch => ?_
    by_cases hcid : ch.cid = c.cid
    · have hchc : ch = c := List.inj_on_of_nodup_map hnd hch hc hcid
      subst hchc
      obtain ⟨m, hm, hfm⟩ := hfail
      rw [List.all_eq_false.mpr ⟨m, hm, by simp [hfm]⟩, bne_self_eq_false]
    · rw [List.all_eq_true.mpr fun m hm =>
        send_msg_of_ok ser ch m (hok ch hch hcid) (hser m hm),
        bne_iff_ne.mpr hcid]
  · intro ch hch hcid
    rw [deliveredTo_eq_channelView ser msgs chs ch hnd hch,
      channelView_all ser ch (hok ch hch hcid) msgs hser]

/-- C5 (witness): three registered connections, the middle one dead; the
broadcast of two messages evicts exactly the dead one, and a surviving
connection receives both messages in order. -/
theorem c5_eviction_isolation_witness :
    (broadcastMsgs serializeMsg
      [HotReloadMsg.UpdateTemplate ⟨1⟩, HotReloadMsg.UpdateTemplate ⟨2⟩]
      [chanOk 1, chanDead 2, chanOk 3]).1 = [chanOk 1, chanOk 3] ∧
    deliveredTo (broadcastMsgs serializeMsg
      [HotReloadMsg.UpdateTemplate ⟨1⟩, HotReloadMsg.UpdateTemplate ⟨2⟩]
      [chanOk 1, chanDead 2, chanOk 3]).2 3
      = [HotReloadMsg.UpdateTemplate ⟨1⟩, HotReloadMsg.UpdateTemplate ⟨2⟩] := by
  have h := c5_eviction_isolation serializeMsg
    [HotReloadMsg.UpdateTemplate ⟨1⟩, HotReloadMsg.UpdateTemplate ⟨2⟩]
    [chanOk 1, chanDead 2, chanOk 3] (chanDead 2)
    (by intro m hm; rcases List.mem_cons.mp hm with rfl | hm
        · rfl
        · rcases List.mem_cons.mp hm with rfl | hm
          · rfl
          · cases hm)
    (by decide)
    (List.mem_cons_of_mem _ (List.mem_cons_self _ _))
    ⟨HotReloadMsg.UpdateTemplate ⟨1⟩, List.mem_cons_self _ _, rfl⟩
    (by intro ch hch hne s
        rcases List.mem_cons.mp hch with rfl | hch
        · rfl
        · rcases List.mem_cons.mp hch with rfl | hch
          · exact absurd rfl hne
          · rcases List.mem_cons.mp hch with rfl | hch
            · rfl
            · cases hch)
  exact ⟨h.1.trans rfl,
    h.2 (chanOk 3)
      (List.mem_cons_of_mem _ (List.mem_cons_of_mem _ (List.mem_cons_self _ _)))
      (by decide)⟩

/-- C6 (counterexample): the router's `UpdatedRsx` handling holds the
connection-registry lock (taken at lib.rs line 261) while acquiring the
diff engine's map lock (line 270), so an operation does hold both locks
simultaneously, refuting the claim. -/
theorem c6_router_holds_both_locks :
    holdsBothLocks routerUpdatedRsxLocks = true := by decide

/-- C6 (amended): the listener takes the two locks strictly one after the
other and never holds both, but the router's batch loop holds the
registry lock across its diff-engine lock acquisition. -/
theorem c6_lock_discipline :
    holdsBothLocks listenerAcceptLocks = false ∧
    holdsBothLocks routerUpdatedRsxLocks = true := by decide

/-- C7 (counterexample): a connection whose replayed template send fails
is still registered (see C1) and then receives a live message, so the
sequence of messages it receives does not begin with the snapshot known
at accept time. -/
theorem c7_failed_replay_still_gets_live :
    deliveredTo (acceptThenBroadcast serializeMsg fmOne [] (chanNoTemplates 9)
      [HotReloadMsg.Shutdown]).2 9 = [HotReloadMsg.Shutdown] ∧
    ¬ ((replaySnapshot fmOne).map HotReloadMsg.UpdateTemplate <+:
        deliveredTo (acceptThenBroadcast serializeMsg fmOne []
          (chanNoTemplates 9) [HotReloadMsg.Shutdown]).2 9) := by
  refine ⟨by decide, by decide⟩

/-- C7 (amended): for a connection whose writes all succeed (and a
serializer that succeeds), the sequence of messages it receives is
exactly the snapshot taken atomically at accept time, in insertion order,
followed by — strictly before — the messages broadcast after it was
registered; registration happens only after the replay loop finishes. -/
theorem c7_replay_before_live (ser : HotReloadMsg → Option String)
    (fm : FileMap) (chs : List Channel) (conn : Channel)
    (later : List HotReloadMsg)
    (hok : ∀ s, conn.writeOk s = true)
    (hser : ∀ m, (ser m).isSome)
    (hnd : (chs.map fun ch => ch.cid).Nodup)
    (hfresh : ∀ ch ∈ chs, ch.cid ≠ conn.cid) :
    deliveredTo (acceptThenBroadcast ser fm chs conn later).2 conn.cid
      = (replaySnapshot fm).map HotReloadMsg.UpdateTemplate ++ later := by
  have hsend : ∀ t : Template,
      send_msg ser conn (HotReloadMsg.UpdateTemplate t) = true :=
    fun t => send_msg_of_ok ser conn _ hok (hser _)
  have hreplay : (acceptConnection ser fm chs conn).2
      = (replaySnapshot fm).map HotReloadMsg.UpdateTemplate := by
    simp only [acceptConnection]
    exact filterMap_guard_true _ _ hsend _
  have hnd2 : ((chs ++ [conn]).map fun ch => ch.cid).Nodup := by
    rw [List.map_append, List.nodup_append]
    refine ⟨hnd, List.nodup_singleton _, ?_⟩
    intro x hx hx2
    rcases List.mem_map.mp hx with ⟨ch, hch, rfl⟩
    simp only [List.map_cons, List.map_nil, List.mem_singleton] at hx2
    exact hfresh ch hch hx2
  have hconnmem : conn ∈ chs ++ [conn] :=
    List.mem_append_right _ (List.mem_cons_self _ _)
  have ha1 : (acceptConnection ser fm chs conn).1 = chs ++ [conn] := rfl
  simp only [acceptThenBroadcast]
  rw [deliveredTo_append, hreplay, deliveredTo_map_self, ha1,
    deliveredTo_eq_channelView ser later (chs ++ [conn]) conn hnd2 hconnmem,
    channelView_all ser conn hok later (fun m _ => hser m)]

/-- C7 (witness): the amended claim at a concrete input — a fresh healthy
connection receives the one-template snapshot first and the later
`Shutdown` after it. -/
theorem c7_replay_before_live_witness :
    deliveredTo (acceptThenBroadcast serializeMsg fmOne [chanOk 1] (chanOk 9)
      [HotReloadMsg.Shutdown]).2 9
      = [HotReloadMsg.UpdateTemplate ⟨1⟩, HotReloadMsg.Shutdown] := by
  have h := c7_replay_before_live serializeMsg fmOne [chanOk 1] (chanOk 9)
    [HotReloadMsg.Shutdown]
    (fun _ => rfl)
    (fun m => by cases m <;> rfl)
    (by decide)
    (by intro ch hch
        rcases List.mem_cons.mp hch with rfl | hch
        · decide
        · cases hch)
  exact h.trans (by decide)

/-- C8 (counterexample): a serialization failure makes `send_msg` report
failure, which the `UpdatedRsx` eviction loop treats as a dead
connection: both healthy registered connections are evicted by one
unserializable message, refuting "no connection is evicted … because of a
serialization failure". -/
theorem c8_serialization_failure_evicts_all :
    serFail (HotReloadMsg.UpdateTemplate ⟨2⟩) = none ∧
    (broadcastMsgs serFail [HotReloadMsg.UpdateTemplate ⟨2⟩]
      [chanOk 1, chanOk 2]).1 = [] :=
  ⟨rfl, rfl⟩

/-- C8 (amended): when serialization of a message fails nothing is
written, but in the `UpdatedRsx` broadcast loop the failure is
indistinguishable from a write failure, so every then-registered
connection is evicted for that message and the loop continues with the
remaining messages over the emptied registry; the replay loop still
registers its connection, and the rebuild path's `Shutdown` broadcast
never evicts. -/
theorem c8_serialization_failure_behavior (ser : HotReloadMsg → Option String)
    (m : HotReloadMsg) (ms : List HotReloadMsg) (chs : List Channel)
    (fm : FileMap) (conn : Channel) (strategy : Option Bool)
    (held : Bool) (st : WatchState) (h : ser m = none) :
    (sweepMsg ser m chs).1 = [] ∧
    broadcastMsgs ser (m :: ms) chs
      = ((broadcastMsgs ser ms []).1, (broadcastMsgs ser ms []).2) ∧
    (acceptConnection ser fm chs conn).1 = chs ++ [conn] ∧
    (rebuildRun strategy held st).state.channels = st.channels := by
  have hsend : ∀ ch : Channel, send_msg ser ch m = false := fun ch => by
    simp [send_msg, h]
  have hs1 : (sweepMsg ser m chs).1 = [] := by
    rw [sweepMsg_fst]
    exact List.filter_eq_nil_iff.mpr fun ch _ hc => by simp [hsend ch] at hc
  refine ⟨hs1, ?_, rfl, ?_⟩
  · simp only [broadcastMsgs]
    rw [sweepMsg_snd, hs1]
    simp
  · rcases strategy with _ | b <;> cases held <;> simp [rebuildRun]

/-- C8 (witness): the amended claim at a concrete input. -/
theorem c8_serialization_failure_behavior_witness :
    (sweepMsg serFail (HotReloadMsg.UpdateTemplate ⟨3⟩) [chanOk 4]).1 = [] ∧
    (acceptConnection serFail fmOne [chanOk 4] (chanOk 9)).1
      = [chanOk 4] ++ [chanOk 9] ∧
    (rebuildRun (some true) false ⟨false, [chanOk 4]⟩).state.channels
      = [chanOk 4] := by
  have h := c8_serialization_failure_behavior serFail
    (HotReloadMsg.UpdateTemplate ⟨3⟩) [] [chanOk 4] fmOne (chanOk 9)
    (some true) false ⟨false, [chanOk 4]⟩ rfl
  exact ⟨h.1, h.2.2.1, h.2.2.2⟩

/-- C9: a changed path is treated as relevant iff its extension is in the
hot-reload-eligible set, it does not start with any excluded-path prefix,
and it is not matched by the ignore rules; a path failing any condition
never reaches the diff engine in a batch, and dropping it from a batch
leaves the batch's entire event trace — every diff call, every rebuild
invocation and every broadcast — and the resulting state unchanged, so an
irrelevant path never results in a diff-engine call or a broadcast. -/
theorem c9_relevance_filter (excluded : List (List String))
    (ignored : FPath → Bool) (p : FPath) :
    (isRelevant excluded ignored p = true ↔
      ((∃ e, p.ext = some e ∧ e ∈ hotReloadExts) ∧
       (∀ q ∈ excluded, ¬ (q <+: p.components)) ∧
       ignored p = false)) ∧
    (∀ (ser : HotReloadMsg → Option String) (strategy : Option Bool)
       (diff : FPath → UpdateResult) (paths : List FPath) (st : WatchState),
      REv.diffCall p ∈ (processBatch ser strategy diff excluded ignored
        paths st).1 →
      isRelevant excluded ignored p = true) ∧
    (∀ (ser : HotReloadMsg → Option String) (strategy : Option Bool)
       (diff : FPath → UpdateResult) (paths₁ paths₂ : List FPath)
       (st : WatchState),
      isRelevant excluded ignored p = false →
      processBatch ser strategy diff excluded ignored
        (paths₁ ++ p :: paths₂) st
        = processBatch ser strategy diff excluded ignored
          (paths₁ ++ paths₂) st) := by
  refine ⟨?_, ?_, ?_⟩
  · constructor
    · intro h
      simp only [isRelevant, Bool.and_eq_true, Bool.not_eq_true'] at h
      obtain ⟨⟨hx, hexc⟩, hign⟩ := h
      refine ⟨?_, ?_, hign⟩
      · cases hext : p.ext with
        | none => rw [hext] at hx; cases hx
        | some e =>
          rw [hext] at hx
          exact ⟨e, rfl, by simpa [List.contains] using hx⟩
      · intro q hq hpre
        rw [List.any_eq_false] at hexc
        exact hexc q hq (List.isPrefixOf_iff_prefix.mpr hpre)
    · rintro ⟨⟨e, hext, he⟩, hexc, hign⟩
      simp only [isRelevant, Bool.and_eq_true, Bool.not_eq_true']
      refine ⟨⟨?_, ?_⟩, hign⟩
      · rw [hext]; simpa [List.contains] using he
      · rw [List.any_eq_false]
        intro q hq hpre
        exact hexc q hq (List.isPrefixOf_iff_prefix.mp hpre)
  · intro ser strategy diff paths st h
    have hmem := diffCall_mem ser strategy diff _ st p h
    exact (List.mem_filter.mp hmem).2
  · intro ser strategy diff paths₁ paths₂ st h
    simp [processBatch, List.filter_append, List.filter_cons, h]

/-- C9 (witness): the claim at concrete inputs — a batch trace containing
a diff call for a source path shows that path passed the relevance
filter, and dropping an irrelevant path (wrong extension) from a batch
leaves the batch evaluation unchanged. -/
theorem c9_relevance_filter_witness :
    isRelevant [] (fun _ => false) pRs = true ∧
    processBatch serializeMsg none diffOneUpdate [] (fun _ => false)
      [pRs, pPng] ⟨false, [chanOk 1]⟩
      = processBatch serializeMsg none diffOneUpdate [] (fun _ => false)
        [pRs] ⟨false, [chanOk 1]⟩ :=
  ⟨(c9_relevance_filter [] (fun _ => false) pRs).2.1 serializeMsg none
    diffOneUpdate [pRs] ⟨false, []⟩ (by decide),
   (c9_relevance_filter [] (fun _ => false) pPng).2.2 serializeMsg none
    diffOneUpdate [pRs] [] ⟨false, [chanOk 1]⟩ (by decide)⟩

/-- C10: any line the client reader obtains without an I/O error is fed
to deserialization and `unwrap`ped, so an unparsable line — including the
empty buffer of the end-of-stream read — panics the client thread; the
read loop ends without a panic exactly on an I/O error whose kind is not
would-block. -/
theorem c10_client_read_loop :
    (∀ line, deserializeMsg line = none →
      clientStep (.ok line) = .panicked) ∧
    deserializeMsg "" = none ∧
    (∀ r, clientStep r = .stopped ↔ r = .err false) := by
  refine ⟨fun line h => ?_, by decide, fun r => ?_⟩
  · simp [clientStep, h]
  · cases r with
    | ok line => cases hd : deserializeMsg line <;> simp [clientStep, hd]
    | err wb => cases wb <;> simp [clientStep]

/-- C10 (witness): the claim at concrete inputs — a garbage line and the
empty end-of-stream read panic, a would-block error does not end the
loop, a real error does. -/
theorem c10_client_read_loop_witness :
    clientStep (.ok "x") = .panicked ∧
    clientStep (.ok "") = .panicked ∧
    clientStep (.err true) ≠ .stopped ∧
    clientStep (.err false) = .stopped := by
  obtain ⟨h1, h2, h3⟩ := c10_client_read_loop
  refine ⟨h1 "x" (by decide), h1 "" h2, fun hc => ?_, (h3 _).mpr rfl⟩
  exact absurd ((h3 _).mp hc) (by decide)

end HotReloadSpec
